import Mathlib

/-!
Verification of the react-textfit fitting engine against its specification.

The development shallowly embeds the core of the repository:

* `src/src/Textfit.tsx` : the `process` method (two-phase binary search over
  a font size, generation-token cancellation, finalizing clamp);
* `src/src/utils/series.ts` : the task sequencer `series`;
* `src/unnamed/part_001` : the conditional repeater `whilst`.

Modelling conventions.  Font sizes, search bounds and generation tokens are
naturals: the engine initialises `low = min || 1` which is at least 1, and
`low` only grows while `high` only shrinks toward it, so every value that the
source manipulates in a reachable run is a nonnegative integer, and
JavaScript `parseInt(((low + high) / 2).toString(), 10)` agrees with natural
division by 2.  The DOM measurement oracle is abstracted as two functions
`fW fH : Nat -> Bool` giving the result of `assertElementFitsWidth` /
`assertElementFitsHeight` on the wrapper once a given font size has been
applied.  Baseline dimensions, which in the browser can be NaN, are modelled
by `JsNum`.  Loops, which the source drives through the `whilst` repeater,
are embedded as structurally recursive functions on an explicit fuel; the
canonical entry points pass fuel that provably exceeds the number of
iterations, so the fuel never runs out on the calls the engine makes.
-/

/-- A JavaScript number as observed by the precondition checks of `process`:
either NaN or an actual (integral) value. -/
inductive JsNum
  | nan
  | val (x : Int)
deriving DecidableEq

/-- JavaScript comparison `a <= b` for a possibly-NaN `a`: NaN compares false. -/
def jsLe (a : JsNum) (b : Int) : Bool :=
  match a with
  | .nan => false
  | .val x => decide (x ≤ b)

/-- JavaScript `isNaN`. -/
def jsIsNaN : JsNum → Bool
  | .nan => true
  | .val _ => false

/-- JavaScript `n || d` on naturals: 0 is the only falsy natural, so the
default is taken exactly when `n = 0` (source: `min || 1`, `max || 100`). -/
def jsOr (n d : Nat) : Nat :=
  if n = 0 then d else n

/-- The `mode` prop of the component (source: `'single' | 'multi'`). -/
inductive Mode
  | single
  | multi
deriving DecidableEq

/-- The configuration a fit run reads from the props (source lines 155-156):
`min`, `max`, `mode`, `forceSingleModeWidth`. -/
structure FitConfig where
  min : Nat
  max : Nat
  mode : Mode
  forceSingleModeWidth : Bool
deriving DecidableEq

/-- Source lines 181-183: `testPrimary` is the height test in multi mode and
the width test in single mode.  `fW s` (resp. `fH s`) abstracts
`assertElementFitsWidth(wrapper, originalWidth)` (resp. height) evaluated
after font size `s` has been applied to the wrapper. -/
def testPrimary (cfg : FitConfig) (fW fH : Nat → Bool) : Nat → Bool :=
  if cfg.mode = Mode.multi then fH else fW

/-- Source lines 185-187: `testSecondary` is the opposite axis of
`testPrimary`. -/
def testSecondary (cfg : FitConfig) (fW fH : Nat → Bool) : Nat → Bool :=
  if cfg.mode = Mode.multi then fW else fH

/-- One binary-search iteration as recorded in a trace: the interval
`[low, high]` at the start of the iteration and the midpoint that was
computed and applied. -/
structure Iter where
  low : Nat
  high : Nat
  mid : Nat
deriving DecidableEq

/-- The outcome of one of the two `whilst` search loops: the final values of
the mutable `low` and `high`, the last midpoint that was applied (none when
the loop performed no iteration), and the trace of iterations in order. -/
structure LoopOut where
  low : Nat
  high : Nat
  lastMid : Option Nat
  trace : List Iter
deriving DecidableEq

/-- Prepend one iteration record to a loop outcome; the last applied midpoint
of the combined run is the midpoint of the deepest iteration. -/
def pushIter (low high mid : Nat) (o : LoopOut) : LoopOut :=
  ⟨o.low, o.high, some (o.lastMid.getD mid), ⟨low, high, mid⟩ :: o.trace⟩

/-- Source lines 198-211, the phase-1 loop: while `low <= high`, compute
`mid = parseInt(((low + high) / 2).toString(), 10)`, apply it, then set
`low = mid + 1` if the primary test passes and `high = mid - 1` otherwise.
Fuel makes the recursion structural; `step1Run` below supplies enough. -/
def step1Loop (fP : Nat → Bool) : Nat → Nat → Nat → LoopOut
  | 0, low, high => ⟨low, high, none, []⟩
  | fuel + 1, low, high =>
    if low ≤ high then
      if fP ((low + high) / 2) then
        pushIter low high ((low + high) / 2) (step1Loop fP fuel ((low + high) / 2 + 1) high)
      else
        pushIter low high ((low + high) / 2) (step1Loop fP fuel low ((low + high) / 2 - 1))
    else ⟨low, high, none, []⟩

/-- Canonical entry of the phase-1 loop: `high + 2` fuel always exceeds the
iteration count, since each iteration strictly shrinks `high + 1 - low`. -/
def step1Run (fP : Nat → Bool) (low high : Nat) : LoopOut :=
  step1Loop fP (high + 2) low high

/-- Source lines 220-233, the phase-2 loop: identical body to phase 1 but run
against the secondary test and continued only while `low < high` (line 221,
strict comparison). -/
def step2Loop (fS : Nat → Bool) : Nat → Nat → Nat → LoopOut
  | 0, low, high => ⟨low, high, none, []⟩
  | fuel + 1, low, high =>
    if low < high then
      if fS ((low + high) / 2) then
        pushIter low high ((low + high) / 2) (step2Loop fS fuel ((low + high) / 2 + 1) high)
      else
        pushIter low high ((low + high) / 2) (step2Loop fS fuel low ((low + high) / 2 - 1))
    else ⟨low, high, none, []⟩

/-- Canonical entry of the phase-2 loop, with provably sufficient fuel. -/
def step2Run (fS : Nat → Bool) (low high : Nat) : LoopOut :=
  step2Loop fS (high + 2) low high

/-- Source lines 237-247, the finalizing step: `mid = Math.min(low, high)`,
then `mid = Math.max(mid, min || 1)`, then `mid = Math.min(mid, max || 100)`,
then the sanity clamp `mid = Math.max(mid, 0)`. -/
def finalize (cfg : FitConfig) (low high : Nat) : Nat :=
  Nat.max (Nat.min (Nat.max (Nat.min low high) (jsOr cfg.min 1)) (jsOr cfg.max 100)) 0

/-- All observables of one undisturbed (never cancelled) fit run. -/
structure RunFitOut where
  trace1 : List Iter
  lastMid1 : Option Nat
  entered2 : Bool
  secondaryCalls : Nat
  trace2 : List Iter
  finalLow : Nat
  finalHigh : Nat
  finalSize : Nat
  applied : List Nat
deriving DecidableEq

/-- The search pipeline of `process` (source lines 189-256) for a run that is
never cancelled: phase 1 from `[min || 1, max || 100]`; then step 2, which is
skipped outright when `mode === 'single' && forceSingleModeWidth` (line 216),
skipped after one secondary-test call when the secondary test already passes
at the last applied phase-1 size (line 217), and otherwise re-runs the search
on `[min || 1, mid]` with `mid` the last phase-1 midpoint (lines 218-233);
then the finalizing clamp of step 3 on whatever `low`/`high` the last loop
left behind.  `secondaryCalls` counts every invocation of the secondary test.
`applied` lists the font sizes passed to `setState` in order.  When phase 1
performs no iteration the source reads the undefined variable `mid`; that
path is outside every claim precondition and is modelled by size 0. -/
def runFit (cfg : FitConfig) (fW fH : Nat → Bool) : RunFitOut :=
  let o1 := step1Run (testPrimary cfg fW fH) (jsOr cfg.min 1) (jsOr cfg.max 100)
  let mid1 := o1.lastMid.getD 0
  if cfg.mode = Mode.single ∧ cfg.forceSingleModeWidth then
    ⟨o1.trace, o1.lastMid, false, 0, [], o1.low, o1.high, finalize cfg o1.low o1.high,
      o1.trace.map Iter.mid ++ [finalize cfg o1.low o1.high]⟩
  else if testSecondary cfg fW fH mid1 then
    ⟨o1.trace, o1.lastMid, false, 1, [], o1.low, o1.high, finalize cfg o1.low o1.high,
      o1.trace.map Iter.mid ++ [finalize cfg o1.low o1.high]⟩
  else
    let o2 := step2Run (testSecondary cfg fW fH) (jsOr cfg.min 1) mid1
    ⟨o1.trace, o1.lastMid, true, 1 + o2.trace.length, o2.trace, o2.low, o2.high,
      finalize cfg o2.low o2.high,
      o1.trace.map Iter.mid ++ o2.trace.map Iter.mid ++ [finalize cfg o2.low o2.high]⟩

/-- The component state that a fit run reads and mutates: the current
generation token `pid` (source line 114), and the React state `fontSize` and
`ready` (source lines 84-87). -/
structure EngineState where
  pid : Nat
  fontSize : Option Nat
  ready : Bool
deriving DecidableEq

/-- Source line 179: a run cancels itself when its captured token differs
from the current one. -/
def shouldCancelProcess (runPid : Nat) (s : EngineState) : Bool :=
  runPid != s.pid

/-- Observables of one call of `process` (source lines 155-257), for a run
that is not interleaved with any other: whether the precondition warning was
logged, the applied sizes, the argument of the `onReady` call if it fired,
and the resulting component state.  `process` is a total function: the
source throws nothing on the precondition path, it logs and returns. -/
structure ProcessOut where
  warned : Bool
  applied : List Nat
  onReadyArg : Option Nat
  state' : EngineState
deriving DecidableEq

/-- Source lines 155-257: the precondition checks on the measured baseline
height and width (lines 166-174) run before the new token is minted (lines
176-177) and before `setState` is first touched, so a failing check returns
with the state exactly as it was; a passing check mints `freshPid`, runs the
search, and finishes with `fontSize` at the finalized value, `ready` true,
and `onReady` invoked with the finalized value. -/
def process (s : EngineState) (freshPid : Nat) (cfg : FitConfig)
    (fW fH : Nat → Bool) (w h : JsNum) : ProcessOut :=
  if jsLe h 0 || jsIsNaN h then ⟨true, [], none, s⟩
  else if jsLe w 0 || jsIsNaN w then ⟨true, [], none, s⟩
  else
    let r := runFit cfg fW fH
    ⟨false, r.applied, some r.finalSize, ⟨freshPid, some r.finalSize, true⟩⟩

/-!
Small-step model of cancellation.  The specification fixes the concurrency
model (section 5): the suspension points of a run are exactly the
apply-font-size-and-wait-for-layout calls, i.e. each
`this.setState({ fontSize: mid }, cb)`; everything between two suspensions is
one atomic segment, and a competing `process` call (which mints a new token)
can only be scheduled between segments.  A suspended run is a `Waiting`
position together with the token it captured; `resume` executes the segment
that starts at the corresponding `setState` callback and either suspends
again, or finishes (possibly emitting an `onReady` call), or aborts because
the token went stale.  The final `setState({ ready: true }, onReady)` of
lines 255 is part of the finalizing segment, per the suspension-point model
of the specification.
-/

/-- The suspension points of a run: waiting for the phase-1 `setState` of
line 203, the phase-2 `setState` of line 225, or the finalizing `setState`
of line 250.  Each carries the loop variables the closure holds. -/
inductive Waiting
  | step1 (low high mid : Nat)
  | step2 (low high mid : Nat)
  | step3 (mid : Nat)
deriving DecidableEq

/-- A suspended run: its captured generation token and its position. -/
structure Run where
  runPid : Nat
  pos : Waiting
deriving DecidableEq

/-- The result of resuming a run: the component state afterwards, the next
suspension if any, and the `onReady` argument if the run completed. -/
structure StepOut where
  state' : EngineState
  next : Option Waiting
  onReadyArg : Option Nat
deriving DecidableEq

/-- Source lines 237-251, reached synchronously inside a segment whose token
has already been checked: compute the clamped final size, re-check the token
(line 249), apply the size and suspend on the finalizing `setState`. -/
def step3Body (g : EngineState) (runPid : Nat) (cfg : FitConfig)
    (low high : Nat) : StepOut :=
  if shouldCancelProcess runPid g then ⟨g, none, none⟩
  else
    ⟨{ g with fontSize := some (finalize cfg low high) },
      some (Waiting.step3 (finalize cfg low high)), none⟩

/-- Source lines 221-225 together with the loop exit into step 3: evaluate
the phase-2 `whilst` test `low < high`; on continuation check the token
(line 223), compute and apply the midpoint and suspend; on exit fall through
to the finalizing step. -/
def step2IterStart (g : EngineState) (runPid : Nat) (cfg : FitConfig)
    (low high : Nat) : StepOut :=
  if low < high then
    if shouldCancelProcess runPid g then ⟨g, none, none⟩
    else
      ⟨{ g with fontSize := some ((low + high) / 2) },
        some (Waiting.step2 low high ((low + high) / 2)), none⟩
  else step3Body g runPid cfg low high

/-- Source lines 215-220, the entry of step 2, reached synchronously when
phase 1 exits: skip to step 3 when `mode === 'single' && forceSingleModeWidth`
(line 216) or when the secondary test passes at the last applied size (line
217); otherwise reset the range to `[min || 1, mid]` and start the strict
loop. -/
def step2Entry (g : EngineState) (runPid : Nat) (cfg : FitConfig)
    (fW fH : Nat → Bool) (low high mid1 : Nat) : StepOut :=
  if cfg.mode = Mode.single ∧ cfg.forceSingleModeWidth then
    step3Body g runPid cfg low high
  else if testSecondary cfg fW fH mid1 then
    step3Body g runPid cfg low high
  else step2IterStart g runPid cfg (jsOr cfg.min 1) mid1

/-- Source lines 199-203 together with the loop exit into step 2: evaluate
the phase-1 `whilst` test `low <= high`; on continuation check the token
(line 201), compute and apply the midpoint and suspend; on exit fall through
to step 2 with `mid1` the last applied phase-1 midpoint. -/
def step1IterStart (g : EngineState) (runPid : Nat) (cfg : FitConfig)
    (fW fH : Nat → Bool) (low high mid1 : Nat) : StepOut :=
  if low ≤ high then
    if shouldCancelProcess runPid g then ⟨g, none, none⟩
    else
      ⟨{ g with fontSize := some ((low + high) / 2) },
        some (Waiting.step1 low high ((low + high) / 2)), none⟩
  else step2Entry g runPid cfg fW fH low high mid1

/-- Resume a suspended run for one segment.  At `step1` the callback of line
203 re-checks the token (line 204: abort through the error channel of
`whilst`, which `series` and the terminal callback of line 254 turn into a
silent stop), tests the primary axis at the applied midpoint and updates the
range (lines 205-206); at `step2` likewise with the check of line 226 and the
secondary test (lines 227-228); at `step3` the callback of line 250 reports
success to `series`, whose terminal callback (lines 252-256) checks
`err || shouldCancelProcess()` and, when current, flips `ready` and invokes
`onReady` with the finalized size. -/
def resume (cfg : FitConfig) (fW fH : Nat → Bool) (g : EngineState)
    (r : Run) : StepOut :=
  match r.pos with
  | .step1 low high mid =>
    if shouldCancelProcess r.runPid g then ⟨g, none, none⟩
    else if testPrimary cfg fW fH mid then
      step1IterStart g r.runPid cfg fW fH (mid + 1) high mid
    else
      step1IterStart g r.runPid cfg fW fH low (mid - 1) mid
  | .step2 low high mid =>
    if shouldCancelProcess r.runPid g then ⟨g, none, none⟩
    else if testSecondary cfg fW fH mid then
      step2IterStart g r.runPid cfg (mid + 1) high
    else
      step2IterStart g r.runPid cfg low (mid - 1)
  | .step3 mid =>
    if shouldCancelProcess r.runPid g then ⟨g, none, none⟩
    else ⟨{ g with ready := true }, none, some mid⟩

/-!
The task sequencer `series` (src/src/utils/series.ts) and the conditional
repeater `whilst` (src/unnamed/part_001).
-/

/-- An abstract step handed to `series`: whether it invokes its continuation
synchronously (before returning to `series`), the error it reports, and the
result value it reports. -/
structure STask (E R : Type) where
  sync : Bool
  err : Option E
  result : R
deriving DecidableEq

/-- The observables of one `series` call: the `results` array in the order
the callbacks pushed them, the error handed to the terminal callback, and
whether the terminal callback was deferred with `setTimeout(end, 0)` because
`done` ran while `isSync` was still true. -/
structure SeriesOut (E R : Type) where
  results : List R
  err : Option E
  deferred : Bool
deriving DecidableEq

/-- Source lines 29-33, the `each` continuation: push the reported result,
then either finish (when the list is exhausted or an error was reported) or
start the next task.  `syncSoFar` tracks whether execution is still inside
the original synchronous `series` call, i.e. whether `isSync` is still true:
it stays true exactly while every completed task called back synchronously. -/
def seriesEach {E R : Type} (t : STask E R) (rest : List (STask E R))
    (syncSoFar : Bool) : SeriesOut E R :=
  if t.err.isSome then ⟨[t.result], t.err, syncSoFar && t.sync⟩
  else
    match rest with
    | [] => ⟨[t.result], none, syncSoFar && t.sync⟩
    | t2 :: rest2 =>
      let o := seriesEach t2 rest2 (syncSoFar && t.sync)
      ⟨t.result :: o.results, o.err, o.deferred⟩

/-- Source lines 16-39, `series`: start the first task with `each` (line 35),
or call `done(null)` straight away on an empty list (line 36); `isSync` is
true throughout that initial synchronous execution and false afterwards, and
`done` defers the terminal callback through `setTimeout` exactly when it runs
while `isSync` is true (lines 21-27). -/
def seriesRun {E R : Type} (ts : List (STask E R)) : SeriesOut E R :=
  match ts with
  | [] => ⟨[], none, true⟩
  | t :: rest => seriesEach t rest true

/-- The executed prefix of a task list: every task up to and including the
first one that reports an error (all of them when none does). -/
def executedTasks {E R : Type} : List (STask E R) → List (STask E R)
  | [] => []
  | t :: rest => t :: (if t.err.isSome then [] else executedTasks rest)

/-- The first error a task list reports, if any task is reached that does. -/
def firstErr {E R : Type} : List (STask E R) → Option E
  | [] => none
  | t :: rest =>
    match t.err with
    | some e => some e
    | none => firstErr rest

/-- Stack depth of `whilst` (src/unnamed/part_001) when `test` and the
iterator both run synchronously and `test` returns true `n` times: the
source recurses, with `iterator(next)` called from inside the `next`
callback (line 25), so for each of the `n` iterations one `iterator` frame
and one `next` frame are pushed and none of them returns until the innermost
call reaches `callback` (counted as the final frame, at `n = 0`).  There is
no loop or trampoline in the source: the depth is measured by this
recurrence. -/
def whilstSyncFrames : Nat → Nat
  | 0 => 1
  | n + 1 => 2 + whilstSyncFrames n

/-- Modelled from the spec: claim C4 asserts that phase 2 runs the same
halving loop as phase 1 including the continuation condition `low <= high`.
This definition renders the loop the claim describes, namely the phase-1
loop body driven by the secondary test; compare with `step2Loop`, the loop
the source actually runs, whose condition at line 221 is the strict
`low < high`. -/
def step2LoopClaimed (fS : Nat → Bool) : Nat → Nat → Nat → LoopOut :=
  step1Loop fS

/-- The update relation between consecutive binary-search iterations, shared
by both phases: when the test passes at the applied midpoint the next
interval starts at `mid + 1`, otherwise it ends at `mid - 1`. -/
def searchRel (f : Nat → Bool) (a b : Iter) : Prop :=
  if f a.mid = true then b.low = a.mid + 1 ∧ b.high = a.high
  else b.low = a.low ∧ b.high = a.mid - 1

/-- Strict shrinking of the search interval between consecutive iterations,
measured as the number of candidates `high + 1 - low` still in range. -/
def shrinkRel (a b : Iter) : Prop :=
  b.high + 1 - b.low < a.high + 1 - a.low

/-- Concrete oracle and configuration used by witnesses: a multi-line run in
a container whose content overflows height above size 40 and width above
size 44 (scenario A of the specification). -/
def cfgA : FitConfig := ⟨1, 100, Mode.multi, true⟩

/-- Width test of the witness oracle. -/
def fWA : Nat → Bool := fun s => decide (s ≤ 44)

/-- Height test of the witness oracle. -/
def fHA : Nat → Bool := fun s => decide (s ≤ 40)

/-- Component state before the witness runs. -/
def stateA : EngineState := ⟨0, none, false⟩

/-- Configuration of the phase-2 counterexample: `min = max = 5`, multi line. -/
def cfg4 : FitConfig := ⟨5, 5, Mode.multi, true⟩

/-- Width test of the counterexample oracle: never fits. -/
def fW4 : Nat → Bool := fun _ => false

/-- Height test of the counterexample oracle: always fits. -/
def fH4 : Nat → Bool := fun _ => true

/-- Configuration exercising the phase-2 skip: single mode with
`forceSingleModeWidth`. -/
def cfg8 : FitConfig := ⟨1, 100, Mode.single, true⟩

/-- A task list whose steps all complete synchronously and successfully. -/
def ts6 : List (STask Bool Nat) := [⟨true, none, 1⟩, ⟨true, none, 2⟩]

/-- A task list whose second step reports an error: the third never runs. -/
def ts7 : List (STask Bool Nat) := [⟨true, none, 1⟩, ⟨false, some true, 2⟩, ⟨true, none, 3⟩]

/-- A run suspended in phase 1 holding a token that is no longer current. -/
def run2 : Run := ⟨1, Waiting.step1 1 100 50⟩

/-- A component state whose current token differs from the one `run2` holds. -/
def state2 : EngineState := ⟨2, none, false⟩

/-!
Helper lemmas.
-/

theorem one_le_jsOr_one (n : Nat) : 1 ≤ jsOr n 1 := by
  unfold jsOr; split <;> omega

theorem jsOr_of_ne (n d : Nat) (h : n ≠ 0) : jsOr n d = n := if_neg h

/-- The finalizing clamp lands in `[min, max]` whenever `1 <= min <= max`,
whatever interval the search left behind. -/
theorem finalize_spec (cfg : FitConfig) (low high : Nat) (hmin : 1 ≤ cfg.min)
    (hmax : cfg.min ≤ cfg.max) :
    finalize cfg low high =
      Nat.max (Nat.min (Nat.max (Nat.min low high) cfg.min) cfg.max) 0 ∧
    cfg.min ≤ finalize cfg low high ∧ finalize cfg low high ≤ cfg.max := by
  have h1 : cfg.min ≠ 0 := by omega
  have h2 : cfg.max ≠ 0 := by omega
  unfold finalize
  rw [jsOr_of_ne _ _ h1, jsOr_of_ne _ _ h2]
  refine ⟨rfl, ?_, ?_⟩ <;>
    · simp only [Nat.max_def, Nat.min_def]
      split_ifs <;> omega

/-- In every branch of the pipeline the reported final size is the clamp of
the final interval. -/
theorem runFit_finalSize (cfg : FitConfig) (fW fH : Nat → Bool) :
    (runFit cfg fW fH).finalSize =
      finalize cfg (runFit cfg fW fH).finalLow (runFit cfg fW fH).finalHigh := by
  simp only [runFit]
  split_ifs <;> rfl

/-- The phase-1 trace is the trace of the phase-1 loop run from the initial
range, in every branch of the pipeline. -/
theorem runFit_trace1 (cfg : FitConfig) (fW fH : Nat → Bool) :
    (runFit cfg fW fH).trace1 =
      (step1Run (testPrimary cfg fW fH) (jsOr cfg.min 1) (jsOr cfg.max 100)).trace := by
  simp only [runFit]
  split_ifs <;> rfl

theorem pushIter_low (low high mid : Nat) (o : LoopOut) :
    (pushIter low high mid o).low = o.low := rfl

theorem pushIter_high (low high mid : Nat) (o : LoopOut) :
    (pushIter low high mid o).high = o.high := rfl

theorem pushIter_trace (low high mid : Nat) (o : LoopOut) :
    (pushIter low high mid o).trace = ⟨low, high, mid⟩ :: o.trace := rfl

theorem step1Loop_succ_pos (fP : Nat → Bool) (f low high : Nat) (hlh : low ≤ high)
    (hf : fP ((low + high) / 2) = true) :
    step1Loop fP (f + 1) low high =
      pushIter low high ((low + high) / 2) (step1Loop fP f ((low + high) / 2 + 1) high) := by
  simp [step1Loop, hlh, hf]

theorem step1Loop_succ_neg (fP : Nat → Bool) (f low high : Nat) (hlh : low ≤ high)
    (hf : fP ((low + high) / 2) = false) :
    step1Loop fP (f + 1) low high =
      pushIter low high ((low + high) / 2) (step1Loop fP f low ((low + high) / 2 - 1)) := by
  simp [step1Loop, hlh, hf]

theorem step1Loop_exit (fP : Nat → Bool) (f low high : Nat) (hlh : ¬ low ≤ high) :
    step1Loop fP (f + 1) low high = ⟨low, high, none, []⟩ := by
  simp [step1Loop, hlh]

/-- Main invariant of the phase-1 loop, by induction on the fuel: with
`1 <= low` and enough fuel the loop ends with `low > high`, every recorded
iteration started inside the current range with the midpoint of its
interval, consecutive iterations are related by the update rule and strictly
shrink the interval, and the first iteration (if any) starts at the given
range. -/
theorem step1Loop_spec (fP : Nat → Bool) :
    ∀ fuel low high, 1 ≤ low → high + 1 - low < fuel →
      (step1Loop fP fuel low high).high < (step1Loop fP fuel low high).low ∧
      (∀ e ∈ (step1Loop fP fuel low high).trace,
        1 ≤ e.low ∧ e.low ≤ e.high ∧ e.mid = (e.low + e.high) / 2 ∧
        low ≤ e.low ∧ e.high ≤ high) ∧
      List.Chain' (searchRel fP) (step1Loop fP fuel low high).trace ∧
      List.Chain' shrinkRel (step1Loop fP fuel low high).trace ∧
      (∀ e ∈ (step1Loop fP fuel low high).trace.head?, e.low = low ∧ e.high = high) := by
  intro fuel
  induction fuel with
  | zero => intro low high h1 h2; omega
  | succ f ih =>
    intro low high h1 h2
    by_cases hlh : low ≤ high
    · have hmid1 : 1 ≤ (low + high) / 2 := by omega
      have hmidlo : low ≤ (low + high) / 2 := by omega
      have hmidhi : (low + high) / 2 ≤ high := by omega
      by_cases hf : fP ((low + high) / 2) = true
      · obtain ⟨ih1, ih2, ih3, ih4, ih5⟩ :=
          ih ((low + high) / 2 + 1) high (by omega) (by omega)
        rw [step1Loop_succ_pos fP f low high hlh hf]
        rw [pushIter_low, pushIter_high, pushIter_trace]
        refine ⟨ih1, ?_, ?_, ?_, ?_⟩
        · intro e he
          rcases List.mem_cons.mp he with rfl | he
          · exact ⟨h1, hlh, rfl, Nat.le_refl _, Nat.le_refl _⟩
          · obtain ⟨a1, a2, a3, a4, a5⟩ := ih2 e he
            exact ⟨a1, a2, a3, by omega, a5⟩
        · refine List.chain'_cons'.mpr ⟨?_, ih3⟩
          intro b hb
          obtain ⟨b1, b2⟩ := ih5 b hb
          simp [searchRel, hf]
          exact ⟨b1, b2⟩
        · refine List.chain'_cons'.mpr ⟨?_, ih4⟩
          intro b hb
          obtain ⟨b1, b2⟩ := ih5 b hb
          simp only [shrinkRel, b1, b2]
          omega
        · intro e he
          simp only [List.head?_cons, Option.mem_def, Option.some.injEq] at he
          subst he
          exact ⟨rfl, rfl⟩
      · have hf' : fP ((low + high) / 2) = false := by
          simpa using hf
        obtain ⟨ih1, ih2, ih3, ih4, ih5⟩ :=
          ih low ((low + high) / 2 - 1) h1 (by omega)
        rw [step1Loop_succ_neg fP f low high hlh hf']
        rw [pushIter_low, pushIter_high, pushIter_trace]
        refine ⟨ih1, ?_, ?_, ?_, ?_⟩
        · intro e he
          rcases List.mem_cons.mp he with rfl | he
          · exact ⟨h1, hlh, rfl, Nat.le_refl _, Nat.le_refl _⟩
          · obtain ⟨a1, a2, a3, a4, a5⟩ := ih2 e he
            exact ⟨a1, a2, a3, a4, by omega⟩
        · refine List.chain'_cons'.mpr ⟨?_, ih3⟩
          intro b hb
          obtain ⟨b1, b2⟩ := ih5 b hb
          simp [searchRel, hf']
          exact ⟨b1, b2⟩
        · refine List.chain'_cons'.mpr ⟨?_, ih4⟩
          intro b hb
          obtain ⟨b1, b2⟩ := ih5 b hb
          simp only [shrinkRel, b1, b2]
          omega
        · intro e he
          simp only [List.head?_cons, Option.mem_def, Option.some.injEq] at he
          subst he
          exact ⟨rfl, rfl⟩
    · rw [step1Loop_exit fP f low high hlh]
      refine ⟨by change high < low; omega, ?_, List.chain'_nil, List.chain'_nil, ?_⟩
      · intro e he; simp at he
      · intro e he; simp at he

theorem step2Loop_succ_pos (fS : Nat → Bool) (f low high : Nat) (hlh : low < high)
    (hf : fS ((low + high) / 2) = true) :
    step2Loop fS (f + 1) low high =
      pushIter low high ((low + high) / 2) (step2Loop fS f ((low + high) / 2 + 1) high) := by
  simp [step2Loop, hlh, hf]

theorem step2Loop_succ_neg (fS : Nat → Bool) (f low high : Nat) (hlh : low < high)
    (hf : fS ((low + high) / 2) = false) :
    step2Loop fS (f + 1) low high =
      pushIter low high ((low + high) / 2) (step2Loop fS f low ((low + high) / 2 - 1)) := by
  simp [step2Loop, hlh, hf]

theorem step2Loop_exit (fS : Nat → Bool) (f low high : Nat) (hlh : ¬ low < high) :
    step2Loop fS (f + 1) low high = ⟨low, high, none, []⟩ := by
  simp [step2Loop, hlh]

/-- Main invariant of the phase-2 loop: as for phase 1, but iteration
continues only while `low < high` (the strict condition of line 221), so the
loop ends with `high <= low` and every recorded iteration has
`low < high`. -/
theorem step2Loop_spec (fS : Nat → Bool) :
    ∀ fuel low high, 1 ≤ low → high - low < fuel →
      (step2Loop fS fuel low high).high ≤ (step2Loop fS fuel low high).low ∧
      (∀ e ∈ (step2Loop fS fuel low high).trace,
        1 ≤ e.low ∧ e.low < e.high ∧ e.mid = (e.low + e.high) / 2 ∧
        low ≤ e.low ∧ e.high ≤ high) ∧
      List.Chain' (searchRel fS) (step2Loop fS fuel low high).trace ∧
      List.Chain' shrinkRel (step2Loop fS fuel low high).trace ∧
      (∀ e ∈ (step2Loop fS fuel low high).trace.head?, e.low = low ∧ e.high = high) := by
  intro fuel
  induction fuel with
  | zero => intro low high h1 h2; omega
  | succ f ih =>
    intro low high h1 h2
    by_cases hlh : low < high
    · have hmid1 : 1 ≤ (low + high) / 2 := by omega
      have hmidlo : low ≤ (low + high) / 2 := by omega
      have hmidhi : (low + high) / 2 < high := by omega
      by_cases hf : fS ((low + high) / 2) = true
      · obtain ⟨ih1, ih2, ih3, ih4, ih5⟩ :=
          ih ((low + high) / 2 + 1) high (by omega) (by omega)
        rw [step2Loop_succ_pos fS f low high hlh hf]
        rw [pushIter_low, pushIter_high, pushIter_trace]
        refine ⟨ih1, ?_, ?_, ?_, ?_⟩
        · intro e he
          rcases List.mem_cons.mp he with rfl | he
          · exact ⟨h1, hlh, rfl, Nat.le_refl _, Nat.le_refl _⟩
          · obtain ⟨a1, a2, a3, a4, a5⟩ := ih2 e he
            exact ⟨a1, a2, a3, by omega, a5⟩
        · refine List.chain'_cons'.mpr ⟨?_, ih3⟩
          intro b hb
          obtain ⟨b1, b2⟩ := ih5 b hb
          simp [searchRel, hf]
          exact ⟨b1, b2⟩
        · refine List.chain'_cons'.mpr ⟨?_, ih4⟩
          intro b hb
          obtain ⟨b1, b2⟩ := ih5 b hb
          simp only [shrinkRel, b1, b2]
          omega
        · intro e he
          simp only [List.head?_cons, Option.mem_def, Option.some.injEq] at he
          subst he
          exact ⟨rfl, rfl⟩
      · have hf' : fS ((low + high) / 2) = false := by
          simpa using hf
        obtain ⟨ih1, ih2, ih3, ih4, ih5⟩ :=
          ih low ((low + high) / 2 - 1) h1 (by omega)
        rw [step2Loop_succ_neg fS f low high hlh hf']
        rw [pushIter_low, pushIter_high, pushIter_trace]
        refine ⟨ih1, ?_, ?_, ?_, ?_⟩
        · intro e he
          rcases List.mem_cons.mp he with rfl | he
          · exact ⟨h1, hlh, rfl, Nat.le_refl _, Nat.le_refl _⟩
          · obtain ⟨a1, a2, a3, a4, a5⟩ := ih2 e he
            exact ⟨a1, a2, a3, a4, by omega⟩
        · refine List.chain'_cons'.mpr ⟨?_, ih3⟩
          intro b hb
          obtain ⟨b1, b2⟩ := ih5 b hb
          simp [searchRel, hf']
          exact ⟨b1, b2⟩
        · refine List.chain'_cons'.mpr ⟨?_, ih4⟩
          intro b hb
          obtain ⟨b1, b2⟩ := ih5 b hb
          simp only [shrinkRel, b1, b2]
          omega
        · intro e he
          simp only [List.head?_cons, Option.mem_def, Option.some.injEq] at he
          subst he
          exact ⟨rfl, rfl⟩
    · rw [step2Loop_exit fS f low high hlh]
      refine ⟨by change high ≤ low; omega, ?_, List.chain'_nil, List.chain'_nil, ?_⟩
      · intro e he; simp at he
      · intro e he; simp at he

/-- The terminal callback is deferred whenever every executed step calls
back synchronously. -/
theorem seriesEach_deferred {E R : Type} :
    ∀ (rest : List (STask E R)) (t : STask E R) (b : Bool),
      b = true → t.sync = true → (∀ x ∈ rest, x.sync = true) →
      (seriesEach t rest b).deferred = true := by
  intro rest
  induction rest with
  | nil =>
    intro t b hb ht _
    cases he : t.err <;> simp [seriesEach, he, hb, ht]
  | cons t2 rest2 ih =>
    intro t b hb ht hall
    cases he : t.err with
    | some e => simp [seriesEach, he, hb, ht]
    | none =>
      have h2 := ih t2 (b && t.sync) (by simp [hb, ht]) (hall t2 (by simp))
        (fun x hx => hall x (by simp [hx]))
      simpa [seriesEach, he] using h2

/-- The pushed results are exactly the results of the executed prefix, and
the terminal error is the first reported error. -/
theorem seriesEach_results {E R : Type} :
    ∀ (rest : List (STask E R)) (t : STask E R) (b : Bool),
      (seriesEach t rest b).results = (executedTasks (t :: rest)).map STask.result ∧
      (seriesEach t rest b).err = firstErr (t :: rest) := by
  intro rest
  induction rest with
  | nil =>
    intro t b
    cases he : t.err <;> simp [seriesEach, executedTasks, firstErr, he]
  | cons t2 rest2 ih =>
    intro t b
    cases he : t.err with
    | some e => simp [seriesEach, executedTasks, firstErr, he]
    | none =>
      have h2 := ih t2 (b && t.sync)
      simp [seriesEach, executedTasks, firstErr, he, h2.1, h2.2]

/-- When no task reports an error, every task is executed. -/
theorem executedTasks_all {E R : Type} :
    ∀ ts : List (STask E R), firstErr ts = none → executedTasks ts = ts := by
  intro ts
  induction ts with
  | nil => intro _; rfl
  | cons t rest ih =>
    intro h
    cases he : t.err with
    | some e => simp [firstErr, he] at h
    | none =>
      simp only [firstErr, he] at h
      simp [executedTasks, he, ih h]

/-- Closed form of the synchronous stack depth of `whilst`: two frames per
iteration plus the final callback frame. -/
theorem whilstSyncFrames_closed : ∀ n : Nat, whilstSyncFrames n = 2 * n + 1 := by
  intro n
  induction n with
  | zero => rfl
  | succ k ih =>
    show 2 + whilstSyncFrames k = 2 * (k + 1) + 1
    omega

/-!
Claim theorems.
-/

/-- Claim C1: for every fit run that completes (is not cancelled and passes
the baseline-dimension precondition), with a config where
`minSize <= maxSize` and both positive, the finalized font size reported to
`onReady` equals `min(low, high)` from the last binary-search phase, clamped
into `[minSize, maxSize]` and floored at 0, and therefore always lies within
`[minSize, maxSize]`. -/
theorem c1_finalized_size_within_bounds (s : EngineState) (freshPid : Nat)
    (cfg : FitConfig) (fW fH : Nat → Bool) (wd hd : JsNum)
    (hh : (jsLe hd 0 || jsIsNaN hd) = false)
    (hw : (jsLe wd 0 || jsIsNaN wd) = false)
    (hmin : 1 ≤ cfg.min) (hmax : cfg.min ≤ cfg.max) :
    (process s freshPid cfg fW fH wd hd).onReadyArg =
      some ((runFit cfg fW fH).finalSize) ∧
    (runFit cfg fW fH).finalSize =
      Nat.max (Nat.min (Nat.max (Nat.min (runFit cfg fW fH).finalLow
        (runFit cfg fW fH).finalHigh) cfg.min) cfg.max) 0 ∧
    cfg.min ≤ (runFit cfg fW fH).finalSize ∧
    (runFit cfg fW fH).finalSize ≤ cfg.max := by
  have hfs := runFit_finalSize cfg fW fH
  obtain ⟨e1, e2, e3⟩ := finalize_spec cfg (runFit cfg fW fH).finalLow
    (runFit cfg fW fH).finalHigh hmin hmax
  refine ⟨?_, ?_, ?_, ?_⟩
  · simp [process, hh, hw]
  · rw [hfs]; exact e1
  · rw [hfs]; exact e2
  · rw [hfs]; exact e3

/-- Claim C2: every resumption point of a run whose captured token differs
from the current token aborts without further side effects: the component
state is unchanged, the run does not continue, and no `onReady` fires — so a
stale run never mutates state after a newer run starts, and only a run whose
token is current can reach the `onReady` emission of the finalizing
segment. -/
theorem c2_stale_resumption_aborts (cfg : FitConfig) (fW fH : Nat → Bool)
    (g : EngineState) (r : Run) (h : r.runPid ≠ g.pid) :
    resume cfg fW fH g r = ⟨g, none, none⟩ := by
  have hc : shouldCancelProcess r.runPid g = true := by
    simpa [shouldCancelProcess, bne_iff_ne] using h
  rcases r with ⟨rp, pos⟩
  cases pos <;> simp [resume, hc]

/-- Claim C3: in phase 1, every iteration computes
`mid = floor((low + high) / 2)` on the interval it starts from, iterates
only while `low <= high`, updates to `low = mid + 1` on a passing primary
test and `high = mid - 1` otherwise, strictly shrinks the interval at each
step, and the loop ends exactly when `low > high`. -/
theorem c3_phase1_binary_search_trace (cfg : FitConfig) (fW fH : Nat → Bool) :
    (runFit cfg fW fH).trace1 =
      (step1Run (testPrimary cfg fW fH) (jsOr cfg.min 1) (jsOr cfg.max 100)).trace ∧
    (step1Run (testPrimary cfg fW fH) (jsOr cfg.min 1) (jsOr cfg.max 100)).high <
      (step1Run (testPrimary cfg fW fH) (jsOr cfg.min 1) (jsOr cfg.max 100)).low ∧
    (∀ e ∈ (step1Run (testPrimary cfg fW fH) (jsOr cfg.min 1) (jsOr cfg.max 100)).trace,
      e.low ≤ e.high ∧ e.mid = (e.low + e.high) / 2) ∧
    List.Chain' (searchRel (testPrimary cfg fW fH))
      (step1Run (testPrimary cfg fW fH) (jsOr cfg.min 1) (jsOr cfg.max 100)).trace ∧
    List.Chain' shrinkRel
      (step1Run (testPrimary cfg fW fH) (jsOr cfg.min 1) (jsOr cfg.max 100)).trace := by
  obtain ⟨h1, h2, h3, h4, _⟩ := step1Loop_spec (testPrimary cfg fW fH)
    (jsOr cfg.max 100 + 2) (jsOr cfg.min 1) (jsOr cfg.max 100)
    (one_le_jsOr_one cfg.min) (by omega)
  exact ⟨runFit_trace1 cfg fW fH, h1,
    fun e he => ⟨(h2 e he).2.1, (h2 e he).2.2.1⟩, h3, h4⟩

/-- Claim C4, counterexample to the claim as stated: the claim asserts that
an entered phase 2 iterates with the continuation condition `low <= high` of
phase 1, but the source loop at line 221 uses the strict `low < high`.  With
`min = max = 5` in multi mode, a content that always overflows width and
never overflows height enters phase 2 on the range `[5, 5]`: the engine
performs no phase-2 iteration, while the loop the claim describes would
perform one at midpoint 5. -/
theorem c4_counterexample :
    (runFit cfg4 fW4 fH4).entered2 = true ∧
    (runFit cfg4 fW4 fH4).trace2 = [] ∧
    (step2LoopClaimed fW4 ((runFit cfg4 fW4 fH4).lastMid1.getD 0 + 2) (jsOr cfg4.min 1)
      ((runFit cfg4 fW4 fH4).lastMid1.getD 0)).trace = [⟨5, 5, 5⟩] := by
  decide

/-- Claim C4 as amended: when phase 2 is entered it runs a binary search
bounded by `[minSize, mid_from_phase1]` against the secondary test, with the
same midpoint computation and the same `low = mid + 1` / `high = mid - 1`
updates as phase 1, but with the strict continuation condition `low < high`
(so it ends with `high <= low` and every iteration has `low < high`). -/
theorem c4_phase2_strict_loop (cfg : FitConfig) (fW fH : Nat → Bool) :
    (∀ e ∈ (runFit cfg fW fH).trace2,
      jsOr cfg.min 1 ≤ e.low ∧ e.high ≤ (runFit cfg fW fH).lastMid1.getD 0 ∧
      e.low < e.high ∧ e.mid = (e.low + e.high) / 2 ∧
      jsOr cfg.min 1 ≤ e.mid ∧ e.mid ≤ (runFit cfg fW fH).lastMid1.getD 0) ∧
    List.Chain' (searchRel (testSecondary cfg fW fH)) (runFit cfg fW fH).trace2 ∧
    List.Chain' shrinkRel (runFit cfg fW fH).trace2 ∧
    (runFit cfg fW fH).finalHigh ≤ (runFit cfg fW fH).finalLow := by
  obtain ⟨p1, _, _, _, _⟩ := step1Loop_spec (testPrimary cfg fW fH)
    (jsOr cfg.max 100 + 2) (jsOr cfg.min 1) (jsOr cfg.max 100)
    (one_le_jsOr_one cfg.min) (by omega)
  simp only [runFit]
  split_ifs with hA hB
  · dsimp only
    exact ⟨fun e he => absurd he (List.not_mem_nil e), List.chain'_nil, List.chain'_nil,
      Nat.le_of_lt p1⟩
  · dsimp only
    exact ⟨fun e he => absurd he (List.not_mem_nil e), List.chain'_nil, List.chain'_nil,
      Nat.le_of_lt p1⟩
  · obtain ⟨s1, s2, s3, s4, _⟩ := step2Loop_spec (testSecondary cfg fW fH)
      ((step1Run (testPrimary cfg fW fH) (jsOr cfg.min 1) (jsOr cfg.max 100)).lastMid.getD 0 + 2)
      (jsOr cfg.min 1)
      ((step1Run (testPrimary cfg fW fH) (jsOr cfg.min 1) (jsOr cfg.max 100)).lastMid.getD 0)
      (one_le_jsOr_one cfg.min) (by omega)
    dsimp only
    refine ⟨?_, s3, s4, s1⟩
    intro e he
    obtain ⟨a1, a2, a3, a4, a5⟩ := s2 e he
    exact ⟨a4, a5, a2, a3, by omega, by omega⟩

/-- Claim C8: when `mode = single` and `forceSingleModeWidth = true`, the
secondary test function is never invoked during the entire run: step 2
returns before its already-fits check, so the call count is zero and there
is no phase-2 iteration. -/
theorem c8_single_force_skips_secondary (cfg : FitConfig) (fW fH : Nat → Bool)
    (h1 : cfg.mode = Mode.single) (h2 : cfg.forceSingleModeWidth = true) :
    (runFit cfg fW fH).secondaryCalls = 0 ∧ (runFit cfg fW fH).trace2 = [] := by
  simp only [runFit]
  rw [if_pos ⟨h1, h2⟩]
  exact ⟨rfl, rfl⟩

/-- Claim C5: for every fit request whose measured baseline height or width
is non-positive or NaN, the engine warns, aborts before any search step (no
candidate size is applied), never invokes `onReady` for that attempt, and
leaves the component state untouched; `process` is a total function, so
nothing is thrown. -/
theorem c5_invalid_baseline_aborts (s : EngineState) (freshPid : Nat)
    (cfg : FitConfig) (fW fH : Nat → Bool) (wd hd : JsNum)
    (hbad : (jsLe hd 0 || jsIsNaN hd) = true ∨ (jsLe wd 0 || jsIsNaN wd) = true) :
    (process s freshPid cfg fW fH wd hd).warned = true ∧
    (process s freshPid cfg fW fH wd hd).applied = [] ∧
    (process s freshPid cfg fW fH wd hd).onReadyArg = none ∧
    (process s freshPid cfg fW fH wd hd).state' = s := by
  unfold process
  rcases hbad with hb | hb
  · simp [hb]
  · by_cases hh : (jsLe hd 0 || jsIsNaN hd) = true
    · simp [hh]
    · simp [hh, hb]

/-- Claim C6: the terminal callback of the sequencer is dispatched
asynchronously (through `setTimeout`, i.e. `deferred`) whenever every step
completes synchronously, so the caller is never re-entered during its own
invocation; in particular the empty step list fires the terminal callback
asynchronously with no error and no results. -/
theorem c6_sync_terminal_deferred {E R : Type} (ts : List (STask E R))
    (h : ∀ t ∈ ts, t.sync = true) :
    (seriesRun ts).deferred = true ∧
    seriesRun ([] : List (STask E R)) = ⟨[], none, true⟩ := by
  constructor
  · cases ts with
    | nil => rfl
    | cons t rest =>
      exact seriesEach_deferred rest t true rfl (h t (by simp))
        (fun x hx => h x (by simp [hx]))
  · rfl

/-- Claim C7: the sequencer runs steps strictly in order — the executed
steps form the prefix of the task list up to and including the first
erroring step, so a step runs exactly when all earlier steps succeeded;
the terminal callback receives the first reported error, and the collected
results are positionally aligned with the executed steps (on full success,
with the whole list). -/
theorem c7_series_order_results {E R : Type} (ts : List (STask E R)) :
    (seriesRun ts).results = (executedTasks ts).map STask.result ∧
    (seriesRun ts).err = firstErr ts ∧
    (firstErr ts = none → executedTasks ts = ts) := by
  refine ⟨?_, ?_, executedTasks_all ts⟩
  · cases ts with
    | nil => rfl
    | cons t rest => exact (seriesEach_results rest t true).1
  · cases ts with
    | nil => rfl
    | cons t rest => exact (seriesEach_results rest t true).2

/-- Claim C9, counterexample to the claim as stated: the stack depth of the
repeater on synchronous iterations is not bounded by any constant — `whilst`
recurses through `iterator(next)` with no loop or trampoline. -/
theorem c9_counterexample : ¬ ∃ c : Nat, ∀ n : Nat, whilstSyncFrames n ≤ c := by
  rintro ⟨c, hc⟩
  have h1 := whilstSyncFrames_closed (c + 1)
  have h2 := hc (c + 1)
  omega

/-- Claim C9 as amended: for `n` synchronous iterations the repeater pushes
`2 * n + 1` nested stack frames — the depth grows strictly and linearly with
the number of synchronous iterations instead of staying constant. -/
theorem c9_whilst_linear_depth (n : Nat) :
    whilstSyncFrames n = 2 * n + 1 ∧ whilstSyncFrames n < whilstSyncFrames (n + 1) := by
  have h1 := whilstSyncFrames_closed n
  have h2 := whilstSyncFrames_closed (n + 1)
  omega

/-- Claim C10: when a fit request fails the baseline-dimension precondition
the engine state is left entirely unchanged — in particular no new
generation token is minted, since the token is assigned only after the
checks pass — so the cancellation predicate of any in-flight run is
unaffected and a previously started run resumes exactly as it would have
before the failed request. -/
theorem c10_failed_precondition_keeps_state (s : EngineState) (freshPid : Nat)
    (cfg : FitConfig) (fW fH : Nat → Bool) (wd hd : JsNum)
    (hbad : (jsLe hd 0 || jsIsNaN hd) = true ∨ (jsLe wd 0 || jsIsNaN wd) = true) :
    (process s freshPid cfg fW fH wd hd).state' = s ∧
    (process s freshPid cfg fW fH wd hd).state'.pid = s.pid ∧
    (∀ p, shouldCancelProcess p (process s freshPid cfg fW fH wd hd).state' =
      shouldCancelProcess p s) ∧
    (∀ (cfg2 : FitConfig) (fW2 fH2 : Nat → Bool) (r : Run),
      resume cfg2 fW2 fH2 (process s freshPid cfg fW fH wd hd).state' r =
        resume cfg2 fW2 fH2 s r) := by
  have hs : (process s freshPid cfg fW fH wd hd).state' = s := by
    unfold process
    rcases hbad with hb | hb
    · simp [hb]
    · by_cases hh : (jsLe hd 0 || jsIsNaN hd) = true
      · simp [hh]
      · simp [hh, hb]
  exact ⟨hs, by rw [hs], fun p => by rw [hs], fun cfg2 fW2 fH2 r => by rw [hs]⟩

/-!
Witnesses: the claim theorems with hypotheses, applied at concrete inputs.
-/

/-- Witness for C1: scenario A — a 200 by 50 container in multi mode whose
content overflows height above 40 and width above 44 — satisfies the
hypotheses, and the finalized size lies in `[1, 100]`. -/
theorem c1_witness :
    (jsLe (JsNum.val 50) 0 || jsIsNaN (JsNum.val 50)) = false ∧
    (jsLe (JsNum.val 200) 0 || jsIsNaN (JsNum.val 200)) = false ∧
    1 ≤ cfgA.min ∧ cfgA.min ≤ cfgA.max ∧
    cfgA.min ≤ (runFit cfgA fWA fHA).finalSize ∧
    (runFit cfgA fWA fHA).finalSize ≤ cfgA.max := by
  have h := c1_finalized_size_within_bounds stateA 1 cfgA fWA fHA
    (JsNum.val 200) (JsNum.val 50) (by decide) (by decide) (by decide) (by decide)
  exact ⟨by decide, by decide, by decide, by decide, h.2.2.1, h.2.2.2⟩

/-- Witness for C2: a run holding token 1 resumes under current token 2 and
aborts with no state change and no `onReady`. -/
theorem c2_witness :
    run2.runPid ≠ state2.pid ∧
    resume cfgA fWA fHA state2 run2 = ⟨state2, none, none⟩ :=
  ⟨by decide, c2_stale_resumption_aborts cfgA fWA fHA state2 run2 (by decide)⟩

/-- Witness for C5: scenario C — baseline height 0 — warns, applies nothing
and never calls `onReady`. -/
theorem c5_witness :
    ((jsLe (JsNum.val 0) 0 || jsIsNaN (JsNum.val 0)) = true ∨
      (jsLe (JsNum.val 200) 0 || jsIsNaN (JsNum.val 200)) = true) ∧
    (process stateA 1 cfgA fWA fHA (JsNum.val 200) (JsNum.val 0)).warned = true ∧
    (process stateA 1 cfgA fWA fHA (JsNum.val 200) (JsNum.val 0)).applied = [] ∧
    (process stateA 1 cfgA fWA fHA (JsNum.val 200) (JsNum.val 0)).onReadyArg = none := by
  have h := c5_invalid_baseline_aborts stateA 1 cfgA fWA fHA
    (JsNum.val 200) (JsNum.val 0) (Or.inl (by decide))
  exact ⟨Or.inl (by decide), h.1, h.2.1, h.2.2.1⟩

/-- Witness for C6: a task list of two synchronous successful steps defers
its terminal callback. -/
theorem c6_witness :
    (∀ t ∈ ts6, t.sync = true) ∧ (seriesRun ts6).deferred = true := by
  have h := c6_sync_terminal_deferred ts6 (by decide)
  exact ⟨by decide, h.1⟩

/-- Witness for C8: a single-mode run with `forceSingleModeWidth` never
calls the secondary test. -/
theorem c8_witness :
    cfg8.mode = Mode.single ∧ cfg8.forceSingleModeWidth = true ∧
    (runFit cfg8 fWA fHA).secondaryCalls = 0 := by
  have h := c8_single_force_skips_secondary cfg8 fWA fHA (by decide) (by decide)
  exact ⟨by decide, by decide, h.1⟩

/-- Witness for C10: a failed precondition with another run in flight (state
token 2) leaves the state and the token untouched. -/
theorem c10_witness :
    ((jsLe (JsNum.val 0) 0 || jsIsNaN (JsNum.val 0)) = true ∨
      (jsLe (JsNum.val 300) 0 || jsIsNaN (JsNum.val 300)) = true) ∧
    (process state2 9 cfgA fWA fHA (JsNum.val 300) (JsNum.val 0)).state' = state2 ∧
    (process state2 9 cfgA fWA fHA (JsNum.val 300) (JsNum.val 0)).state'.pid = state2.pid := by
  have h := c10_failed_precondition_keeps_state state2 9 cfgA fWA fHA
    (JsNum.val 300) (JsNum.val 0) (Or.inl (by decide))
  exact ⟨Or.inl (by decide), h.1, h.2.1⟩
